import Mathlib

/-!
Verification development for the LcStudy game-progression core.

The definitions below are a shallow embedding of the Python sources:

* `src/lcstudy/repositories/precomputed_repository.py`
  (`PrecomputedRepository`: `_load_path`, `_load_all`, `has_games`,
  `assign_game`, `get_expected`, `get_leela_color`, `consume_game`);
* `src/lcstudy/services/game_service.py`
  (`GameService.create_session`, `GameService.make_move`,
  `GameService.make_maia_move`);
* `src/lcstudy/repositories/session_repository.py`
  (`InMemorySessionRepository`).

The external chess-rules library (python-chess boards) is an out-of-scope
collaborator; it is represented by an abstract interface `Rules B`
(turn, legality, push, terminal test), exactly the operations the core
calls on `session.board`.  `chess.Move.from_uci` success is modelled by
the concrete predicate `uciOk`, following python-chess's parser.  Python
float score accumulation (`score_total`, only ever `+ 1.0` / `+ 0.0`
from `0.0`) is modelled exactly over `Rat`.  File-system effects are
modelled by threading an explicit list of PGN files (`disk`), with a
boolean `deleteOk` standing for success of the best-effort `unlink`.
-/

namespace LcStudy

/-- `chess.Color`: python-chess colors (WHITE, BLACK). -/
inductive Color where
  | white
  | black
deriving DecidableEq

/-- `SessionStatus` enum from `domain/models.py`. -/
inductive SessionStatus where
  | playing
  | finished
  | paused
deriving DecidableEq

/-! ### Model of `chess.Move.from_uci` success (UCI move-string parsing) -/

/-- A file letter `a`..`h` (part of a square name). -/
def isFileCh (c : Char) : Bool := 'a' ≤ c && c ≤ 'h'

/-- A rank digit `1`..`8` (part of a square name). -/
def isRankCh (c : Char) : Bool := '1' ≤ c && c ≤ '8'

/-- A piece symbol accepted by `PIECE_SYMBOLS.index` (lowercase). -/
def isPieceSym (c : Char) : Bool :=
  c = 'p' || c = 'n' || c = 'b' || c = 'r' || c = 'q' || c = 'k'

/-- Whether `chess.Move.from_uci` succeeds on this string: the null move
`0000`, a drop `P@e4`, or `<from><to>[promotion]` with distinct squares. -/
def uciOk (u : String) : Bool :=
  if u = "0000" then true
  else
    match u.toList with
    | [a, b, c, d] =>
      if b = '@' then isPieceSym a.toLower && isFileCh c && isRankCh d
      else isFileCh a && isRankCh b && isFileCh c && isRankCh d && !(a = c && b = d)
    | [a, b, c, d, pr] =>
      isFileCh a && isRankCh b && isFileCh c && isRankCh d && isPieceSym pr
        && !(a = c && b = d)
    | _ => false

/-! ### Precomputed game repository (`precomputed_repository.py`) -/

/-- `PrecomputedGame`: UCI move list plus the color Leela (the user side)
played, as determined from the PGN headers at load time. -/
structure GameRec where
  moves : List String
  leela : Color
deriving DecidableEq

/-- A PGN file visible to the repository's directory scan.  `stem` is the
filename without extension (the game id), `isUser` records whether the
file lives under the user-writable directory (deletable), and `parsed`
is the result of `chess.pgn.read_game` (`none` for unreadable files). -/
structure PFile where
  path : String
  stem : String
  isUser : Bool
  parsed : Option GameRec
deriving DecidableEq

/-- State of `PrecomputedRepository`: `games` is the `_games` dict,
`paths` the `_paths` dict, `ids` the insertion-ordered `_ids` list,
`rr_index` the round-robin cursor and `loaded_paths` the `_loaded_paths`
set of already-scanned files. -/
structure RepoState where
  games : List (String × GameRec)
  paths : List (String × PFile)
  ids : List String
  rr_index : Nat
  loaded_paths : List String
deriving DecidableEq

/-- Python dict lookup over an association list (insertion order). -/
def lookupA {β : Type} : List (String × β) → String → Option β
  | [], _ => none
  | p :: t, k => if p.1 = k then some p.2 else lookupA t k

/-- `_load_path`: parse one file; skip unreadable or empty games before
marking the path loaded; index the game only if its id is new. -/
def load_path (s : RepoState) (f : PFile) : RepoState :=
  match f.parsed with
  | none => s
  | some g =>
    if g.moves.isEmpty then s
    else
      let s1 :=
        if (lookupA s.games f.stem).isSome then s
        else
          { s with
            games := s.games ++ [(f.stem, g)]
            ids := s.ids ++ [f.stem]
            paths := s.paths ++ [(f.stem, f)] }
      { s1 with loaded_paths := f.path :: s1.loaded_paths }

/-- `_load_all`: scan the directories (seeds then user, in sorted order,
here a single ordered list) and load every path not yet loaded. -/
def load_all : RepoState → List PFile → RepoState
  | s, [] => s
  | s, f :: fs =>
    load_all (if f.path ∈ s.loaded_paths then s else load_path s f) fs

/-- `has_games`: `bool(self._ids)` without a rescan. -/
def has_games (s : RepoState) : Bool := !s.ids.isEmpty

/-- `assign_game`: under the lock, rescan, then round-robin select
`_ids[_rr_index % len(_ids)]` and advance the cursor. -/
def assign_game (disk : List PFile) (s : RepoState) : Option String × RepoState :=
  match (load_all s disk).ids[(load_all s disk).rr_index % (load_all s disk).ids.length]? with
  | none => (none, load_all s disk)
  | some gid =>
    (some gid, { load_all s disk with rr_index := (load_all s disk).rr_index + 1 })

/-- `get_expected`: expected move of game `gid` at ply `ply`, `none` for
unknown ids or out-of-range plies. -/
def get_expected (s : RepoState) (gid : String) (ply : Nat) : Option String :=
  match lookupA s.games gid with
  | none => none
  | some g => g.moves[ply]?

/-- `get_leela_color`: the color Leela played, `none` for unknown ids. -/
def get_leela_color (s : RepoState) (gid : String) : Option Color :=
  match lookupA s.games gid with
  | none => none
  | some g => some g.leela

/-- `consume_game`: remove the id from the in-memory index
unconditionally, then best-effort delete the backing file when it is
user-generated (`deleteOk` models whether the `unlink` succeeds; failure
is swallowed).  `_loaded_paths` is deliberately left untouched. -/
def consume_game (deleteOk : Bool) (disk : List PFile) (s : RepoState) (gid : String) :
    Bool × RepoState × List PFile :=
  match lookupA s.games gid with
  | none => (false, s, disk)
  | some _ =>
    let s1 : RepoState :=
      { s with
        ids := s.ids.erase gid
        games := s.games.filter (fun p => p.1 ≠ gid)
        paths := s.paths.filter (fun p => p.1 ≠ gid) }
    let disk1 :=
      match lookupA s.paths gid with
      | some f => if f.isUser ∧ deleteOk then disk.filter (fun g => g.path ≠ f.path) else disk
      | none => disk
    (true, s1, disk1)

/-- Repository state after `n` successive `assign_game` calls. -/
def repoAfter (disk : List PFile) (s : RepoState) : Nat → RepoState
  | 0 => s
  | n + 1 => (assign_game disk (repoAfter disk s n)).2

/-- Result of the `(n+1)`-th of a run of successive `assign_game` calls. -/
def nthAssign (disk : List PFile) (s : RepoState) (n : Nat) : Option String :=
  (assign_game disk (repoAfter disk s n)).1

/-- A file the loader would index: readable with a non-empty move list. -/
def goodFile (f : PFile) : Bool :=
  match f.parsed with
  | none => false
  | some g => !g.moves.isEmpty

/-! ### Game service (`game_service.py`) -/

/-- The external chess-rules library interface (python-chess board),
exactly the operations `GameService` calls on `session.board`:
whose turn it is, membership in `legal_moves`, `push`, `is_game_over`. -/
structure Rules (B : Type) where
  turn : B → Color
  isLegal : B → String → Bool
  push : B → String → B
  isGameOver : B → Bool

/-- `GameSession` (`domain/models.py`), restricted to the fields the game
service reads or writes.  `precomputed = none` models a session on which
the (undeclared) `precomputed_game_id` / `precomputed_ply_index`
attributes were never set — reading them raises `AttributeError`;
`precomputed = some (g, p)` models attributes set to values `g`
(an `Option String`, since the code also stores `None`) and `p`. -/
structure GameSession (B : Type) where
  id : String
  board : B
  status : SessionStatus
  player_color : Color
  maia_level : Nat
  score_total : Rat
  move_index : Nat
  flip : Bool
  current_move_attempts : Nat
  precomputed : Option (Option String × Nat)
deriving DecidableEq

/-- Exceptions escaping `make_move` / `make_maia_move`:
`GameFinishedError`, `IllegalMoveError` (with its message), python
`ValueError` from `chess.Move.from_uci`, and `AttributeError` from
reading an attribute that was never set on the dataclass. -/
inductive GErr where
  | gameFinished
  | illegalMove (reason : String)
  | valueError
  | attributeError
deriving DecidableEq

/-- `MoveResult` dataclass. -/
structure MoveResult where
  player_move : String
  correct : Bool
  message : String
  leela_move : Option String
  maia_move : Option String
  score_hint : Option Rat
  attempts : Option Nat
deriving DecidableEq

/-- Python truthiness of `session.precomputed_game_id`'s value
(`None` and the empty string are falsy). -/
def truthy : Option String → Bool
  | none => false
  | some g => if g = "" then false else true

/-- `GameService.make_move(session, move_str, client_validated)`.
Returns the graded result (or the raised exception) together with the
session object as left by the call, the repository state and the disk.
The service's `precomputed_repo` is always constructed (`deps.py`), so
`self.precomputed_repo` is truthy and only the session attribute gates
the oracle branches. -/
def make_move {B : Type} (R : Rules B) (deleteOk : Bool) (repo : RepoState)
    (disk : List PFile) (s : GameSession B) (move_str : String)
    (client_validated : Bool) :
    Except GErr MoveResult × GameSession B × RepoState × List PFile :=
  if s.status ≠ SessionStatus.playing then
    (Except.error GErr.gameFinished, s, repo, disk)
  else if uciOk move_str = false then
    (Except.error (GErr.illegalMove "Invalid move format"), s, repo, disk)
  else if R.turn s.board ≠ s.player_color then
    (Except.error (GErr.illegalMove "Not your turn"), s, repo, disk)
  else if R.isLegal s.board move_str = false then
    (Except.error (GErr.illegalMove "Illegal move in current position"), s, repo, disk)
  else if client_validated then
    let s1 : GameSession B :=
      { s with
        board := R.push s.board move_str
        move_index := s.move_index + 1
        score_total := s.score_total + 1 }
    let s2 := if R.isGameOver s1.board then { s1 with status := SessionStatus.finished } else s1
    (Except.ok
      { player_move := move_str, correct := true, message := "Move accepted",
        leela_move := some move_str, maia_move := none, score_hint := none,
        attempts := some 1 }, s2, repo, disk)
  else
    match s.precomputed with
    | none => (Except.error GErr.attributeError, s, repo, disk)
    | some (gidOpt, ply) =>
      if truthy gidOpt = false then
        let s1 := { s with current_move_attempts := s.current_move_attempts + 1 }
        (Except.ok
          { player_move := move_str, correct := false,
            message := "No precomputed game available", leela_move := none,
            maia_move := none, score_hint := none,
            attempts := some s1.current_move_attempts }, s1, repo, disk)
      else
        let gid := gidOpt.getD ""
        match get_expected repo gid ply with
        | none =>
          let s1 := { s with current_move_attempts := s.current_move_attempts + 1 }
          (Except.ok
            { player_move := move_str, correct := false,
              message := "No expected move (end of precomputed game)",
              leela_move := none, maia_move := none, score_hint := none,
              attempts := some s1.current_move_attempts }, s1, repo, disk)
        | some expected =>
          if move_str ≠ expected then
            let s1 := { s with current_move_attempts := s.current_move_attempts + 1 }
            if 10 ≤ s1.current_move_attempts then
              if uciOk expected = false then (Except.error GErr.valueError, s1, repo, disk)
              else
                let s2 : GameSession B :=
                  { s1 with
                    board := R.push s1.board expected
                    move_index := s1.move_index + 1
                    score_total := s1.score_total + 0
                    current_move_attempts := 0
                    precomputed := some (gidOpt, ply + 1) }
                let res : MoveResult :=
                  { player_move := expected, correct := true,
                    message := "Auto-played after 10 attempts.",
                    leela_move := some expected, maia_move := none,
                    score_hint := none, attempts := some 10 }
                if R.isGameOver s2.board then
                  let c := consume_game deleteOk disk repo gid
                  (Except.ok res, { s2 with status := SessionStatus.finished }, c.2.1, c.2.2)
                else
                  (Except.ok res, s2, repo, disk)
            else
              (Except.ok
                { player_move := move_str, correct := false,
                  message := "Not the top move. Try again.", leela_move := none,
                  maia_move := none, score_hint := none,
                  attempts := some s1.current_move_attempts }, s1, repo, disk)
          else
            if uciOk expected = false then (Except.error GErr.valueError, s, repo, disk)
            else
              let attempts_used := s.current_move_attempts + 1
              let s2 : GameSession B :=
                { s with
                  board := R.push s.board expected
                  move_index := s.move_index + 1
                  score_total := s.score_total + 1
                  current_move_attempts := 0
                  precomputed := some (gidOpt, ply + 1) }
              let res : MoveResult :=
                { player_move := move_str, correct := true, message := "Correct",
                  leela_move := some expected, maia_move := none,
                  score_hint := none, attempts := some attempts_used }
              if R.isGameOver s2.board then
                let c := consume_game deleteOk disk repo gid
                (Except.ok res, { s2 with status := SessionStatus.finished }, c.2.1, c.2.2)
              else
                (Except.ok res, s2, repo, disk)

/-- `GameService.make_maia_move(session)`: play the scripted opponent
reply, finishing and consuming the script when the board is terminal
after the reply or when the script has no next move. -/
def make_maia_move {B : Type} (R : Rules B) (deleteOk : Bool) (repo : RepoState)
    (disk : List PFile) (s : GameSession B) :
    Except GErr (Option String) × GameSession B × RepoState × List PFile :=
  if s.status ≠ SessionStatus.playing then (Except.ok none, s, repo, disk)
  else if R.isGameOver s.board then
    (Except.ok none, { s with status := SessionStatus.finished }, repo, disk)
  else
    match s.precomputed with
    | none => (Except.error GErr.attributeError, s, repo, disk)
    | some (gidOpt, ply) =>
      if truthy gidOpt = false then
        (Except.ok none, { s with status := SessionStatus.finished }, repo, disk)
      else
        let gid := gidOpt.getD ""
        match get_expected repo gid ply with
        | none =>
          let c := consume_game deleteOk disk repo gid
          (Except.ok none,
            { s with status := SessionStatus.finished, precomputed := some (none, 0) },
            c.2.1, c.2.2)
        | some e =>
          if e = "" then
            let c := consume_game deleteOk disk repo gid
            (Except.ok none,
              { s with status := SessionStatus.finished, precomputed := some (none, 0) },
              c.2.1, c.2.2)
          else if uciOk e = false then (Except.error GErr.valueError, s, repo, disk)
          else
            let s1 : GameSession B :=
              { s with
                board := R.push s.board e
                move_index := s.move_index + 1
                precomputed := some (gidOpt, ply + 1) }
            if R.isGameOver s1.board then
              let c := consume_game deleteOk disk repo gid
              (Except.ok (some e),
                { s1 with status := SessionStatus.finished, precomputed := some (none, 0) },
                c.2.1, c.2.2)
            else
              (Except.ok (some e), s1, repo, disk)

/-- `GameService.create_session(maia_level, player_color, custom_fen)`.
`custom_fen = none` is no FEN supplied; `some none` a FEN string
`chess.Board` rejects (silent fallback to the standard start, the
`initBoard`); `some (some b)` a FEN parsing to board `b`. -/
def create_session {B : Type} (R : Rules B) (initBoard : B) (repo : RepoState)
    (disk : List PFile) (sid : String) (maia_level : Nat)
    (player_color : Option Color) (custom_fen : Option (Option B)) :
    GameSession B × RepoState :=
  let board :=
    match custom_fen with
    | none => initBoard
    | some none => initBoard
    | some (some b) => b
  let ar :
      Option String × RepoState :=
    if has_games repo then
      let p := assign_game disk repo
      (match p.1 with
       | some gid => if gid = "" then none else some gid
       | none => none, p.2)
    else (none, repo)
  let assigned := ar.1
  let repo2 := ar.2
  let actual :=
    match assigned with
    | some gid =>
      match get_leela_color repo2 gid with
      | some lc => lc
      | none => player_color.getD Color.white
    | none => player_color.getD Color.white
  let base : GameSession B :=
    { id := sid, board := board, status := SessionStatus.playing,
      player_color := actual, maia_level := maia_level, score_total := 0,
      move_index := 0, flip := decide (actual = Color.black),
      current_move_attempts := 0, precomputed := none }
  match assigned with
  | none => (base, repo2)
  | some gid =>
    let s1 := { base with precomputed := some (some gid, 0) }
    if get_leela_color repo2 gid = some Color.black ∧ R.turn s1.board = Color.white then
      match get_expected repo2 gid 0 with
      | some m =>
        if m ≠ "" ∧ uciOk m = true ∧ R.isLegal s1.board m = true then
          ({ s1 with
             board := R.push s1.board m
             precomputed := some (some gid, 1)
             move_index := s1.move_index + 1 }, repo2)
        else (s1, repo2)
      | none => (s1, repo2)
    else (s1, repo2)

/-- State `(session, repo, disk)` after `n` submissions
`subs 0, …, subs (n-1)` through `make_move` (not client-validated). -/
def state_after {B : Type} (R : Rules B) (deleteOk : Bool) (subs : Nat → String)
    (st : GameSession B × RepoState × List PFile) :
    Nat → GameSession B × RepoState × List PFile
  | 0 => st
  | n + 1 =>
    let p := state_after R deleteOk subs st n
    (make_move R deleteOk p.2.1 p.2.2 p.1 (subs n) false).2

/-- Graded result of the `(n+1)`-th submission of such a run. -/
def nth_result {B : Type} (R : Rules B) (deleteOk : Bool) (subs : Nat → String)
    (st : GameSession B × RepoState × List PFile) (n : Nat) :
    Except GErr MoveResult :=
  let p := state_after R deleteOk subs st n
  (make_move R deleteOk p.2.1 p.2.2 p.1 (subs n) false).1

/-! ### Session store (`session_repository.py`, `InMemorySessionRepository`) -/

/-- Python dict assignment: replace in place, else append. -/
def dictSet {β : Type} : List (String × β) → String → β → List (String × β)
  | [], k, v => [(k, v)]
  | p :: t, k, v => if p.1 = k then (k, v) :: t else p :: dictSet t k v

/-- The in-memory session store: `_sessions` and `_access_times` dicts.
Wall-clock times (`time.time()`) are passed in explicitly. -/
structure SessionStore (α : Type) where
  sessions : List (String × α)
  access_times : List (String × Nat)
deriving DecidableEq

/-- `save_session`: insert or overwrite, stamping the access time. -/
def save_session {α : Type} (st : SessionStore α) (sid : String) (sess : α)
    (now : Nat) : SessionStore α :=
  { sessions := dictSet st.sessions sid sess
    access_times := dictSet st.access_times sid now }

/-- `get_session`: lookup, stamping the access time on a hit. -/
def get_session {α : Type} (st : SessionStore α) (sid : String) (now : Nat) :
    Option α × SessionStore α :=
  match lookupA st.sessions sid with
  | none => (none, st)
  | some sess => (some sess, { st with access_times := dictSet st.access_times sid now })

/-- `cleanup_expired(max_age_seconds)`: collect the ids whose last access
is strictly older than `maxAge` at time `now`, delete them from both
dicts, and return how many were collected. -/
def cleanup_expired {α : Type} (st : SessionStore α) (now maxAge : Nat) :
    Nat × SessionStore α :=
  let expired := (st.access_times.filter (fun p => maxAge < now - p.2)).map Prod.fst
  (expired.length,
   { sessions := st.sessions.filter (fun p => p.1 ∉ expired)
     access_times := st.access_times.filter (fun p => p.1 ∉ expired) })

/-! ### Concrete instances for witnesses and counterexamples -/

/-- A tiny board model satisfying the `Rules` interface: the list of
moves played so far. -/
abbrev ToyBoard := List String

/-- A concrete rules engine for the toy board: white moves on even plies,
any string `chess.Move.from_uci` accepts is legal, and the game ends as
soon as `overAt` plies have been played. -/
def toyRules (overAt : Nat) : Rules ToyBoard :=
  { turn := fun b => if b.length % 2 = 0 then Color.white else Color.black
    isLegal := fun _ m => uciOk m
    push := fun b m => b ++ [m]
    isGameOver := fun b => overAt ≤ b.length }

/-- A bundled (read-only) seed file with three recorded plies. -/
def fileA : PFile :=
  { path := "seeds/alpha.pgn", stem := "alpha", isUser := false,
    parsed := some { moves := ["e2e4", "e7e5", "g1f3"], leela := Color.white } }

/-- A user-generated file whose recorded user side is Black. -/
def fileB : PFile :=
  { path := "user/beta.pgn", stem := "beta", isUser := true,
    parsed := some { moves := ["d2d4", "g8f6"], leela := Color.black } }

/-- A concrete two-file disk. -/
def toyDisk : List PFile := [fileA, fileB]

/-- A freshly constructed repository (before `_load_all`). -/
def emptyRepo : RepoState :=
  { games := [], paths := [], ids := [], rr_index := 0, loaded_paths := [] }

/-- The repository after its constructor scan of `toyDisk`. -/
def toyRepo : RepoState := load_all emptyRepo toyDisk

/-! ### Association-list and loader lemmas -/

theorem lookupA_append_ne {β : Type} {gid k : String} {v : β} :
    ∀ (l : List (String × β)), lookupA l gid = none → k ≠ gid →
      lookupA (l ++ [(k, v)]) gid = none
  | [], _, hk => by simp [lookupA, hk]
  | p :: t, h, hk => by
    by_cases hpc : p.1 = gid
    · simp [lookupA, hpc] at h
    · simp only [lookupA, if_neg hpc] at h
      simpa only [List.cons_append, lookupA, if_neg hpc] using
        lookupA_append_ne t h hk

theorem lookupA_filter_ne {β : Type} (gid : String) :
    ∀ l : List (String × β),
      lookupA (l.filter (fun p => !decide (p.1 = gid))) gid = none
  | [] => rfl
  | p :: t => by
    by_cases hpc : p.1 = gid
    · simpa [List.filter_cons, hpc] using lookupA_filter_ne gid t
    · simpa [List.filter_cons, hpc, lookupA] using lookupA_filter_ne gid t

/-- After a `consume_game`, the id is gone from the in-memory index. -/
theorem consume_game_lookup_none (deleteOk : Bool) (disk : List PFile)
    (s : RepoState) (gid : String) :
    lookupA ((consume_game deleteOk disk s gid).2.1).games gid = none := by
  unfold consume_game
  cases h : lookupA s.games gid with
  | none => simp only [h]
  | some g => simp [h, lookupA_filter_ne]

/-- `gid` is indexed by neither `games` nor `ids` of `t`. -/
def GoneFrom (gid : String) (t : RepoState) : Prop :=
  lookupA t.games gid = none ∧ gid ∉ t.ids

/-- Every file of `disk` that could reintroduce `gid` is already in
`t`'s scanned-paths set, so a rescan will skip it. -/
def BlockedFor (disk : List PFile) (gid : String) (t : RepoState) : Prop :=
  ∀ f ∈ disk, f.stem = gid → goodFile f = true → f.path ∈ t.loaded_paths

theorem load_path_loaded_mono (s : RepoState) (f : PFile) :
    s.loaded_paths ⊆ (load_path s f).loaded_paths := by
  unfold load_path
  cases f.parsed with
  | none => exact fun x hx => hx
  | some g =>
    by_cases he : g.moves.isEmpty
    · simp only [he, if_pos]
      exact fun x hx => hx
    · by_cases hlk : (lookupA s.games f.stem).isSome
      · simp only [he, hlk]
        intro x hx
        simp [hx]
      · simp only [he, hlk]
        intro x hx
        simp [hx]

theorem load_all_loaded_mono :
    ∀ (l : List PFile) (s : RepoState),
      s.loaded_paths ⊆ (load_all s l).loaded_paths
  | [], _ => fun _ hx => hx
  | f :: fs, s => by
    unfold load_all
    by_cases hm : f.path ∈ s.loaded_paths
    · simpa [hm] using load_all_loaded_mono fs s
    · simp only [hm, if_neg, if_false]
      exact (load_path_loaded_mono s f).trans (load_all_loaded_mono fs (load_path s f))

theorem load_all_keeps_gone (gid : String) :
    ∀ (l : List PFile) (t : RepoState),
      GoneFrom gid t →
      (∀ f ∈ l, f.stem = gid → goodFile f = true → f.path ∈ t.loaded_paths) →
      GoneFrom gid (load_all t l)
  | [], _, hg, _ => hg
  | f :: fs, t, hg, hb => by
    unfold load_all
    by_cases hm : f.path ∈ t.loaded_paths
    · rw [if_pos hm]
      exact load_all_keeps_gone gid fs t hg
        (fun f' hf' => hb f' (List.mem_cons_of_mem _ hf'))
    · rw [if_neg hm]
      refine load_all_keeps_gone gid fs (load_path t f) ?_ ?_
      · unfold load_path
        cases hp : f.parsed with
        | none => exact hg
        | some g =>
          by_cases he : g.moves.isEmpty
          · simp only [he, if_pos]
            exact hg
          · by_cases hstem : f.stem = gid
            · exact absurd
                (hb f (List.mem_cons_self f fs) hstem (by simp [goodFile, hp, he])) hm
            · by_cases hlk : (lookupA t.games f.stem).isSome
              · simp only [he, hlk]
                exact hg
              · simp only [he, hlk]
                refine ⟨lookupA_append_ne _ hg.1 hstem, ?_⟩
                intro hmem
                rcases List.mem_append.mp hmem with h | h
                · exact hg.2 h
                · rw [List.mem_singleton] at h
                  exact hstem h.symm
      · intro f' hf' hst hgood
        exact load_path_loaded_mono t f (hb f' (List.mem_cons_of_mem _ hf') hst hgood)

theorem assign_game_keeps (disk : List PFile) (gid : String) (t : RepoState)
    (hg : GoneFrom gid t) (hb : BlockedFor disk gid t) :
    (assign_game disk t).1 ≠ some gid ∧ GoneFrom gid (assign_game disk t).2 ∧
      BlockedFor disk gid (assign_game disk t).2 := by
  have hg1 : GoneFrom gid (load_all t disk) := load_all_keeps_gone gid disk t hg hb
  have hb1 : BlockedFor disk gid (load_all t disk) := fun f hf hs hgood =>
    load_all_loaded_mono disk t (hb f hf hs hgood)
  cases hget :
      (load_all t disk).ids[(load_all t disk).rr_index % (load_all t disk).ids.length]? with
  | none =>
    simp only [assign_game, hget]
    exact ⟨by simp, hg1, hb1⟩
  | some g =>
    simp only [assign_game, hget]
    refine ⟨?_, ⟨hg1.1, hg1.2⟩, hb1⟩
    intro hcontra
    simp only [Option.some.injEq] at hcontra
    exact hg1.2 (hcontra ▸ List.getElem?_mem hget)

theorem repoAfter_keeps (disk : List PFile) (gid : String) (s : RepoState)
    (hg : GoneFrom gid s) (hb : BlockedFor disk gid s) :
    ∀ n : Nat, GoneFrom gid (repoAfter disk s n) ∧ BlockedFor disk gid (repoAfter disk s n)
  | 0 => ⟨hg, hb⟩
  | n + 1 => by
    have ih := repoAfter_keeps disk gid s hg hb n
    have h := assign_game_keeps disk gid (repoAfter disk s n) ih.1 ih.2
    exact ⟨h.2.1, h.2.2⟩

/-- C1: after `consume_game(gid)` has returned true, no later
`assign_game` call (each of which re-runs the directory rescan over the
remaining disk, on which the bundled seed file may well remain) ever
returns `gid` again, and `get_expected gid p` is `none` at every ply
`p`; the in-memory removal is unconditional, holding for both outcomes
`deleteOk` of the best-effort disk deletion. -/
theorem C1_at_most_once_consumption
    (deleteOk : Bool) (disk : List PFile) (repo : RepoState) (gid : String)
    (s' : RepoState) (disk' : List PFile)
    (h1 : consume_game deleteOk disk repo gid = (true, s', disk'))
    (h2 : ∀ f ∈ disk, f.stem = gid → goodFile f = true → f.path ∈ repo.loaded_paths)
    (h3 : repo.ids.Nodup) :
    ∀ n : Nat, nthAssign disk' s' n ≠ some gid ∧
      ∀ p : Nat, get_expected (repoAfter disk' s' n) gid p = none := by
  have h1c : (consume_game deleteOk disk repo gid).2.1 = s' := by rw [h1]
  unfold consume_game at h1
  cases hl : lookupA repo.games gid with
  | none => rw [hl] at h1; simp at h1
  | some g =>
    rw [hl] at h1
    simp only [Prod.mk.injEq, true_and] at h1
    obtain ⟨hs', hdisk'⟩ := h1
    have hlk : lookupA s'.games gid = none := by
      rw [← h1c]; exact consume_game_lookup_none deleteOk disk repo gid
    have hids : s'.ids = repo.ids.erase gid := by rw [← hs']
    have hload : s'.loaded_paths = repo.loaded_paths := by rw [← hs']
    have hsub : ∀ f ∈ disk', f ∈ disk := by
      rw [← hdisk']
      cases lookupA repo.paths gid with
      | none => exact fun f hf => hf
      | some pf =>
        dsimp only
        split
        · exact fun f hf => (List.filter_sublist disk).subset hf
        · exact fun f hf => hf
    have hgone : GoneFrom gid s' := by
      refine ⟨hlk, ?_⟩
      rw [hids]
      exact h3.not_mem_erase
    have hblock : BlockedFor disk' gid s' := by
      intro f hf hs hgood
      rw [hload]
      exact h2 f (hsub f hf) hs hgood
    intro n
    have hinv := repoAfter_keeps disk' gid s' hgone hblock n
    constructor
    · exact (assign_game_keeps disk' gid (repoAfter disk' s' n) hinv.1 hinv.2).1
    · intro p
      unfold get_expected
      rw [hinv.1.1]

/-- The concrete repository state after consuming the bundled game. -/
def toyRepoConsumed : RepoState := (consume_game true toyDisk toyRepo "alpha").2.1

/-- The concrete disk after consuming the bundled game (its seed file
is not user-generated, so it stays on disk). -/
def toyDiskConsumed : List PFile := (consume_game true toyDisk toyRepo "alpha").2.2

/-- Witness for C1: consuming the bundled game `alpha` from the concrete
two-file repository (with the seed file left on disk), subsequent
assignment calls avoid it and its expected moves are gone. -/
theorem C1_at_most_once_consumption_witness :
    consume_game true toyDisk toyRepo "alpha" = (true, toyRepoConsumed, toyDiskConsumed) ∧
      nthAssign toyDiskConsumed toyRepoConsumed 0 ≠ some "alpha" ∧
      nthAssign toyDiskConsumed toyRepoConsumed 1 ≠ some "alpha" ∧
      get_expected toyRepoConsumed "alpha" 0 = none := by
  have h := C1_at_most_once_consumption true toyDisk toyRepo "alpha"
    toyRepoConsumed toyDiskConsumed (by decide) (by decide) (by decide)
  exact ⟨by decide, (h 0).1, (h 1).1, (h 0).2 0⟩

/-! ### Round-robin assignment lemmas -/

theorem load_path_rr (s : RepoState) (f : PFile) (n : Nat) :
    load_path { s with rr_index := n } f = { load_path s f with rr_index := n } := by
  unfold load_path
  cases f.parsed with
  | none => rfl
  | some g =>
    by_cases he : g.moves.isEmpty
    · simp [he]
    · by_cases hlk : (lookupA s.games f.stem).isSome
      · simp [he, hlk]
      · simp [he, hlk]

theorem load_all_rr : ∀ (l : List PFile) (s : RepoState) (n : Nat),
    load_all { s with rr_index := n } l = { load_all s l with rr_index := n }
  | [], _, _ => rfl
  | f :: fs, s, n => by
    unfold load_all
    by_cases hm : f.path ∈ s.loaded_paths
    · rw [if_pos hm, if_pos hm]
      exact load_all_rr fs s n
    · rw [if_neg hm, if_neg hm, load_path_rr]
      exact load_all_rr fs (load_path s f) n

/-- On a rescan fixpoint with a non-empty pool, one `assign_game` call
returns `_ids[_rr_index % len(_ids)]` and bumps the cursor. -/
theorem assign_game_fixed (disk : List PFile) (s : RepoState)
    (hfix : load_all s disk = s) (hne : s.ids ≠ []) :
    assign_game disk s =
      (s.ids[s.rr_index % s.ids.length]?, { s with rr_index := s.rr_index + 1 }) := by
  unfold assign_game
  rw [hfix]
  cases hget : s.ids[s.rr_index % s.ids.length]? with
  | none =>
    exfalso
    have hlen : 0 < s.ids.length := List.length_pos.mpr hne
    have := List.getElem?_eq_getElem (l := s.ids) (Nat.mod_lt s.rr_index hlen)
    rw [hget] at this
    exact Option.noConfusion this
  | some g => rfl

theorem repoAfter_fixed (disk : List PFile) (s : RepoState)
    (hfix : load_all s disk = s) (hne : s.ids ≠ []) :
    ∀ n : Nat, repoAfter disk s n = { s with rr_index := s.rr_index + n }
  | 0 => by rw [Nat.add_zero]; rfl
  | n + 1 => by
    have ih := repoAfter_fixed disk s hfix hne n
    have hfix' : load_all { s with rr_index := s.rr_index + n } disk =
        { s with rr_index := s.rr_index + n } := by
      rw [load_all_rr, hfix]
    have h := assign_game_fixed disk { s with rr_index := s.rr_index + n } hfix' hne
    show (assign_game disk (repoAfter disk s n)).2 = _
    rw [ih, h]
    rfl

theorem nthAssign_fixed (disk : List PFile) (s : RepoState)
    (hfix : load_all s disk = s) (hne : s.ids ≠ []) (n : Nat) :
    nthAssign disk s n = s.ids[(s.rr_index + n) % s.ids.length]? := by
  have hfix' : load_all { s with rr_index := s.rr_index + n } disk =
      { s with rr_index := s.rr_index + n } := by
    rw [load_all_rr, hfix]
  show (assign_game disk (repoAfter disk s n)).1 = _
  rw [repoAfter_fixed disk s hfix hne n,
    assign_game_fixed disk { s with rr_index := s.rr_index + n } hfix' hne]

/-- C4: a repository holding `N` games whose rescan is a fixpoint (no
newly appearing files) and whose cursor is at 0 serves, over `N`
consecutive `assign_game` calls, each id exactly once in insertion
order; the `(N+1)`-th call wraps to the first id; and each call
advances the cursor by exactly one, the `(k+1)`-th call selecting
`_ids[k % N]`. -/
theorem C4_round_robin_coverage (disk : List PFile) (s : RepoState)
    (l : List String) (N : Nat) (hfix : load_all s disk = s)
    (hrr : s.rr_index = 0) (hids : s.ids = l) (hN : l.length = N)
    (hpos : 0 < N) (hnd : l.Nodup) :
    (∀ k, k < N → nthAssign disk s k = l[k]?) ∧
      (∀ k j, k < N → j < N → k ≠ j → nthAssign disk s k ≠ nthAssign disk s j) ∧
      nthAssign disk s N = l[0]? ∧
      (∀ k, (repoAfter disk s k).rr_index = k) := by
  have hne : s.ids ≠ [] := by
    rw [hids]
    exact List.ne_nil_of_length_pos (hN ▸ hpos)
  have hform : ∀ k, nthAssign disk s k = l[k % N]? := by
    intro k
    rw [nthAssign_fixed disk s hfix hne k, hrr, Nat.zero_add, hids, hN]
  refine ⟨?_, ?_, ?_, ?_⟩
  · intro k hk
    rw [hform k, Nat.mod_eq_of_lt hk]
  · intro k j hk hj hkj
    rw [hform k, hform j, Nat.mod_eq_of_lt hk, Nat.mod_eq_of_lt hj]
    intro hcontra
    have hk' : k < l.length := hN ▸ hk
    have hj' : j < l.length := hN ▸ hj
    rw [List.getElem?_eq_getElem hk', List.getElem?_eq_getElem hj'] at hcontra
    simp only [Option.some.injEq] at hcontra
    exact hkj ((hnd.getElem_inj_iff).mp hcontra)
  · rw [hform N, Nat.mod_self]
  · intro k
    rw [repoAfter_fixed disk s hfix hne k, hrr]
    exact Nat.zero_add k

/-- Witness for C4 on the concrete two-game repository: `alpha` then
`beta` in insertion order, then wrap-around back to `alpha`. -/
theorem C4_round_robin_coverage_witness :
    nthAssign toyDisk toyRepo 0 = some "alpha" ∧
      nthAssign toyDisk toyRepo 1 = some "beta" ∧
      nthAssign toyDisk toyRepo 0 ≠ nthAssign toyDisk toyRepo 1 ∧
      nthAssign toyDisk toyRepo 2 = some "alpha" ∧
      (repoAfter toyDisk toyRepo 2).rr_index = 2 := by
  have h := C4_round_robin_coverage toyDisk toyRepo ["alpha", "beta"] 2
    (by decide) (by decide) (by decide) (by decide) (by decide) (by decide)
  refine ⟨?_, ?_, h.2.1 0 1 (by decide) (by decide) (by decide), ?_, h.2.2.2 2⟩
  · rw [h.1 0 (by decide)]; rfl
  · rw [h.1 1 (by decide)]; rfl
  · rw [h.2.2.1]; rfl

/-! ### Exclusive assignment (C7) -/

/-- A single-file disk for the exclusive-assignment counterexample. -/
def fileG : PFile :=
  { path := "seeds/gamma.pgn", stem := "gamma", isUser := false,
    parsed := some { moves := ["c2c4"], leela := Color.white } }

/-- A disk holding exactly one scripted game. -/
def oneDisk : List PFile := [fileG]

/-- The repository after the constructor scan of `oneDisk`. -/
def oneRepo : RepoState := load_all emptyRepo oneDisk

/-- Counterexample to C7: with a single available game, two successive
`assign_game` calls with no intervening consumption both return the
same id, so two simultaneously Playing sessions share one script. -/
theorem C7_exclusive_assignment_counterexample :
    nthAssign oneDisk oneRepo 0 = some "gamma" ∧
      nthAssign oneDisk oneRepo 1 = some "gamma" := by decide

/-- C7 (amended): two consecutive `assign_game` calls with no
intervening consumption return distinct ids whenever at least two games
are available (and, by C4, throughout one full round-robin cycle); once
the cursor wraps — immediately, with a single-game pool — the same id
is handed out again, because assignment never removes an id from the
pool. -/
theorem C7_exclusive_assignment_amended (disk : List PFile) (s : RepoState)
    (l : List String) (hfix : load_all s disk = s) (hids : s.ids = l)
    (hnd : l.Nodup) (h2 : 2 ≤ l.length) :
    nthAssign disk s 0 ≠ nthAssign disk s 1 := by
  have hpos : 0 < l.length := Nat.lt_of_lt_of_le (by decide) h2
  have hne : s.ids ≠ [] := by
    rw [hids]
    exact List.ne_nil_of_length_pos hpos
  rw [nthAssign_fixed disk s hfix hne 0, nthAssign_fixed disk s hfix hne 1, hids]
  set c := s.rr_index with hc
  set n := l.length with hn
  have ha : (c + 0) % n < n := Nat.mod_lt _ hpos
  have hb : (c + 1) % n < n := Nat.mod_lt _ hpos
  have hab : (c + 0) % n ≠ (c + 1) % n := by
    rw [Nat.add_zero]
    have hstep : (c + 1) % n = (c % n + 1) % n := by
      conv_lhs => rw [Nat.add_mod]
      rw [Nat.mod_eq_of_lt (show 1 < n from h2)]
    by_cases hlt : c % n + 1 < n
    · rw [hstep, Nat.mod_eq_of_lt hlt]
      omega
    · have hceil : c % n + 1 = n := by
        have := Nat.mod_lt c hpos
        omega
      rw [hstep, hceil, Nat.mod_self]
      omega
  rw [List.getElem?_eq_getElem ha, List.getElem?_eq_getElem hb]
  intro hcontra
  simp only [Option.some.injEq] at hcontra
  exact hab ((hnd.getElem_inj_iff).mp hcontra)

/-- Witness for the amended C7 on the two-game repository. -/
theorem C7_exclusive_assignment_amended_witness :
    nthAssign toyDisk toyRepo 0 ≠ nthAssign toyDisk toyRepo 1 :=
  C7_exclusive_assignment_amended toyDisk toyRepo ["alpha", "beta"]
    (by decide) (by decide) (by decide) (by decide)

/-! ### Session-store lemmas (C10) -/

theorem lookupA_filter_notin_of_mem {β : Type} {E : List String} {sid : String}
    (hmem : sid ∈ E) :
    ∀ l : List (String × β), lookupA (l.filter (fun p => p.1 ∉ E)) sid = none
  | [] => rfl
  | p :: t => by
    by_cases hp : p.1 ∈ E
    · simpa [List.filter_cons, hp] using lookupA_filter_notin_of_mem hmem t
    · have hne : p.1 ≠ sid := fun h => hp (h ▸ hmem)
      simpa [List.filter_cons, hp, lookupA, hne] using
        lookupA_filter_notin_of_mem hmem t

theorem lookupA_filter_notin_of_not_mem {β : Type} {E : List String} {sid : String}
    (hmem : sid ∉ E) :
    ∀ l : List (String × β),
      lookupA (l.filter (fun p => p.1 ∉ E)) sid = lookupA l sid
  | [] => rfl
  | p :: t => by
    by_cases hps : p.1 = sid
    · subst hps
      simp [List.filter_cons, hmem, lookupA]
    · by_cases hp : p.1 ∈ E
      · simpa [List.filter_cons, hp, lookupA, hps] using
          lookupA_filter_notin_of_not_mem hmem t
      · simpa [List.filter_cons, hp, lookupA, hps] using
          lookupA_filter_notin_of_not_mem hmem t

/-- With unique keys, the key of an entry looked up as `some t` appears
among the keys of entries kept by a value-level filter iff its own value
passes the filter. -/
theorem mem_filter_keys_iff {q : Nat → Bool} :
    ∀ l : List (String × Nat), (l.map Prod.fst).Nodup →
      ∀ {sid : String} {t : Nat}, lookupA l sid = some t →
        (sid ∈ (l.filter (fun p => q p.2)).map Prod.fst ↔ q t = true)
  | [], _, _, _, hlk => by simp [lookupA] at hlk
  | (k, v) :: tl, hnd, sid, t, hlk => by
    have hnd' : (tl.map Prod.fst).Nodup := (List.nodup_cons.mp hnd).2
    have hknotin : k ∉ tl.map Prod.fst := (List.nodup_cons.mp hnd).1
    by_cases hks : k = sid
    · subst hks
      simp [lookupA] at hlk
      subst hlk
      by_cases hq : q v = true
      · simp [List.filter_cons, hq]
      · have hq' : q v = false := by simpa using hq
        simp only [List.filter_cons, hq', Bool.false_eq_true, if_false]
        constructor
        · intro hmem
          exact absurd
            ((List.Sublist.map Prod.fst (List.filter_sublist tl)).subset hmem) hknotin
        · intro h
          simp at h
    · simp only [lookupA, if_neg hks] at hlk
      have ih := mem_filter_keys_iff (q := q) tl hnd' hlk
      by_cases hq : q v = true
      · simp only [List.filter_cons, hq, if_pos]
        rw [List.map_cons, List.mem_cons]
        constructor
        · intro h
          rcases h with h | h
          · exact absurd h.symm hks
          · exact ih.mp h
        · intro h
          exact Or.inr (ih.mpr h)
      · simp only [List.filter_cons]
        rw [if_neg (by simp [hq])]
        exact ih

theorem filter_split_length {α : Type} (p : α → Bool) :
    ∀ l : List α, (l.filter p).length + (l.filter (fun a => !p a)).length = l.length
  | [] => rfl
  | a :: t => by
    cases hp : p a <;>
      simp [List.filter_cons, hp, ← filter_split_length p t] <;> omega

theorem map_fst_filter_key {β : Type} (q : String → Bool) :
    ∀ l : List (String × β),
      (l.filter (fun p => q p.1)).map Prod.fst = (l.map Prod.fst).filter q
  | [] => rfl
  | p :: t => by
    cases hq : q p.1 <;> simp [List.filter_cons, hq, map_fst_filter_key q t]

theorem filter_mem_length_eq {keys E : List String} (hk : keys.Nodup)
    (hE : E.Nodup) (hsub : ∀ x ∈ E, x ∈ keys) :
    (keys.filter (fun x => x ∈ E)).length = E.length := by
  have hperm : (keys.filter (fun x => x ∈ E)).Perm E := by
    rw [List.perm_ext_iff_of_nodup
      (List.Nodup.sublist (List.filter_sublist keys) hk) hE]
    intro a
    constructor
    · intro h
      have := List.mem_filter.mp h
      simpa using this.2
    · intro h
      exact List.mem_filter.mpr ⟨hsub a h, by simpa using h⟩
  exact hperm.length_eq

theorem dictSet_lookup_self {β : Type} (k : String) (v : β) :
    ∀ l : List (String × β), lookupA (dictSet l k v) k = some v
  | [] => by simp [dictSet, lookupA]
  | p :: t => by
    by_cases hp : p.1 = k
    · simp [dictSet, hp, lookupA]
    · simp [dictSet, hp, lookupA, dictSet_lookup_self k v t]

theorem dictSet_keys_of_mem {β : Type} {k : String} (v : β) :
    ∀ {l : List (String × β)}, k ∈ l.map Prod.fst →
      (dictSet l k v).map Prod.fst = l.map Prod.fst
  | [], hmem => by simp at hmem
  | p :: t, hmem => by
    by_cases hp : p.1 = k
    · simp [dictSet, hp]
    · have hmem' : k ∈ t.map Prod.fst := by
        simp only [List.map_cons, List.mem_cons] at hmem
        rcases hmem with h | h
        · exact absurd h.symm hp
        · exact h
      simp [dictSet, hp, dictSet_keys_of_mem v hmem']

theorem lookupA_some_mem_keys {β : Type} {k : String} {v : β} :
    ∀ {l : List (String × β)}, lookupA l k = some v → k ∈ l.map Prod.fst
  | [], hlk => by simp [lookupA] at hlk
  | p :: t, hlk => by
    by_cases hp : p.1 = k
    · simp [hp]
    · simp only [lookupA, if_neg hp] at hlk
      simpa using Or.inr (lookupA_some_mem_keys hlk)

/-- C10: one `cleanup_expired` pass removes exactly the sessions whose
last access is strictly older than the timeout (counting each removal),
while sessions accessed within the window — including through a `get`,
which stamps the access time — survive it. -/
theorem C10_expiry_sweep {α : Type} (st : SessionStore α) (sid : String)
    (t now maxAge now0 : Nat) (sess : α)
    (hnd : (st.access_times.map Prod.fst).Nodup)
    (hsync : st.sessions.map Prod.fst = st.access_times.map Prod.fst) :
    (lookupA st.access_times sid = some t → maxAge < now - t →
      lookupA (cleanup_expired st now maxAge).2.sessions sid = none ∧
        lookupA (cleanup_expired st now maxAge).2.access_times sid = none ∧
        (cleanup_expired st now maxAge).1 =
          st.sessions.length - (cleanup_expired st now maxAge).2.sessions.length ∧
        (cleanup_expired st now maxAge).2.sessions.length < st.sessions.length) ∧
      (lookupA st.access_times sid = some t → now - t ≤ maxAge →
        lookupA (cleanup_expired st now maxAge).2.sessions sid =
          lookupA st.sessions sid) ∧
      (lookupA st.sessions sid = some sess → now - now0 ≤ maxAge →
        (get_session st sid now0).1 = some sess ∧
          lookupA (cleanup_expired (get_session st sid now0).2 now maxAge).2.sessions
            sid = some sess) := by
  refine ⟨?_, ?_, ?_⟩
  · intro hlk hexp
    have hmem : sid ∈ (st.access_times.filter
        (fun p => maxAge < now - p.2)).map Prod.fst := by
      refine (mem_filter_keys_iff (q := fun x => decide (maxAge < now - x))
        st.access_times hnd hlk).mpr ?_
      simpa using hexp
    refine ⟨lookupA_filter_notin_of_mem hmem st.sessions,
      lookupA_filter_notin_of_mem hmem st.access_times, ?_, ?_⟩
    all_goals
      set E := (st.access_times.filter (fun p => maxAge < now - p.2)).map Prod.fst
        with hE
      have hEnd : E.Nodup :=
        List.Nodup.sublist (List.Sublist.map Prod.fst
          (List.filter_sublist st.access_times)) hnd
      have hEsub : ∀ x ∈ E, x ∈ st.access_times.map Prod.fst := fun x hx =>
        (List.Sublist.map Prod.fst (List.filter_sublist st.access_times)).subset hx
      have hconv : st.sessions.filter (fun p => p.1 ∉ E) =
          st.sessions.filter (fun p => !decide (p.1 ∈ E)) :=
        List.filter_congr (fun a _ => by simp [decide_not])
      have hsplit := filter_split_length (fun p => decide (p.1 ∈ E)) st.sessions
      have hin : (st.sessions.filter (fun p => decide (p.1 ∈ E))).length = E.length := by
        have hmf := map_fst_filter_key (fun x => decide (x ∈ E)) st.sessions
        have : (st.sessions.filter (fun p => decide (p.1 ∈ E))).length =
            ((st.sessions.map Prod.fst).filter (fun x => decide (x ∈ E))).length := by
          rw [← hmf, List.length_map]
        rw [this, hsync]
        exact filter_mem_length_eq hnd hEnd hEsub
      have hsidkeys : sid ∈ st.sessions.map Prod.fst := by
        rw [hsync]
        exact lookupA_some_mem_keys hlk
      have hpos : 0 < (st.sessions.filter (fun p => decide (p.1 ∈ E))).length := by
        rcases List.mem_map.mp hsidkeys with ⟨p, hpmem, hpfst⟩
        have : p ∈ st.sessions.filter (fun p => decide (p.1 ∈ E)) :=
          List.mem_filter.mpr ⟨hpmem, by simp [hpfst, hmem]⟩
        exact List.length_pos.mpr (fun hnil => by simp [hnil] at this)
    · show E.length = st.sessions.length -
        (st.sessions.filter (fun p => p.1 ∉ E)).length
      rw [hconv]
      omega
    · show (st.sessions.filter (fun p => p.1 ∉ E)).length < st.sessions.length
      rw [hconv]
      omega
  · intro hlk hok
    have hnmem : sid ∉ (st.access_times.filter
        (fun p => maxAge < now - p.2)).map Prod.fst := by
      intro hmem
      have := (mem_filter_keys_iff (q := fun x => decide (maxAge < now - x))
        st.access_times hnd hlk).mp hmem
      simp at this
      omega
    exact lookupA_filter_notin_of_not_mem hnmem st.sessions
  · intro hses hfresh
    have hg : get_session st sid now0 =
        (some sess, { st with access_times := dictSet st.access_times sid now0 }) := by
      simp [get_session, hses]
    have hsidacc : sid ∈ st.access_times.map Prod.fst := by
      rw [← hsync]
      exact lookupA_some_mem_keys hses
    have hkeys : (dictSet st.access_times sid now0).map Prod.fst =
        st.access_times.map Prod.fst := dictSet_keys_of_mem now0 hsidacc
    have hnd' : ((dictSet st.access_times sid now0).map Prod.fst).Nodup := by
      rw [hkeys]; exact hnd
    have hlk' : lookupA (dictSet st.access_times sid now0) sid = some now0 :=
      dictSet_lookup_self sid now0 st.access_times
    have hnmem : sid ∉ ((dictSet st.access_times sid now0).filter
        (fun p => maxAge < now - p.2)).map Prod.fst := by
      intro hmem
      have := (mem_filter_keys_iff (q := fun x => decide (maxAge < now - x))
        (dictSet st.access_times sid now0) hnd' hlk').mp hmem
      simp at this
      omega
    rw [hg]
    refine ⟨rfl, ?_⟩
    show lookupA (st.sessions.filter _) sid = some sess
    rw [lookupA_filter_notin_of_not_mem hnmem st.sessions]
    exact hses

/-- A concrete store: one stale session, one recently accessed one. -/
def toyStore : SessionStore Nat :=
  { sessions := [("old", 1), ("fresh", 2)]
    access_times := [("old", 10), ("fresh", 95)] }

/-- Witness for C10 at time 100 with a 30-second timeout: the session
last touched at 10 is swept and counted, the one touched at 95 (and
re-stamped by a `get` at 99) survives. -/
theorem C10_expiry_sweep_witness :
    lookupA toyStore.access_times "old" = some 10 ∧
      lookupA (cleanup_expired toyStore 100 30).2.sessions "old" = none ∧
      (cleanup_expired toyStore 100 30).1 = 1 ∧
      lookupA (cleanup_expired toyStore 100 30).2.sessions "fresh" =
        lookupA toyStore.sessions "fresh" ∧
      (get_session toyStore "fresh" 99).1 = some 2 ∧
      lookupA (cleanup_expired (get_session toyStore "fresh" 99).2 100 30).2.sessions
        "fresh" = some 2 := by
  have h1 := C10_expiry_sweep toyStore "old" 10 100 30 0 1 (by decide) (by decide)
  have h2 := C10_expiry_sweep toyStore "fresh" 95 100 30 99 2 (by decide) (by decide)
  have ha := h1.1 (by decide) (by decide)
  have hb := h2.2.1 (by decide) (by decide)
  have hc := h2.2.2 (by decide) (by decide)
  exact ⟨by decide, ha.1, by decide, hb, hc.1, hc.2⟩

/-! ### Move grading (C2, C3) -/

/-- C3: with retry count 0 and expected move `m` at the current script
ply, submitting `m` itself grades correct, awards exactly one unit of
score, advances `plyIndex` (`move_index`) and the script ply by one,
resets the retry count, reports one attempt used, and echoes `m` back
as the engine-opinion (`leela_move`) — in both the game-over and the
game-continuing branch. -/
theorem C3_correct_guess_accounting {B : Type} (R : Rules B) (dOk : Bool)
    (repo : RepoState) (disk : List PFile) (s : GameSession B) (gid : String)
    (ply : Nat) (m : String)
    (hstat : s.status = SessionStatus.playing)
    (hcma : s.current_move_attempts = 0)
    (hpre : s.precomputed = some (some gid, ply))
    (hgid : gid ≠ "")
    (hexp : get_expected repo gid ply = some m)
    (huci : uciOk m = true)
    (hturn : R.turn s.board = s.player_color)
    (hleg : R.isLegal s.board m = true) :
    (make_move R dOk repo disk s m false).1 =
      Except.ok ⟨m, true, "Correct", some m, none, none, some 1⟩ ∧
      (make_move R dOk repo disk s m false).2.1.board = R.push s.board m ∧
      (make_move R dOk repo disk s m false).2.1.score_total = s.score_total + 1 ∧
      (make_move R dOk repo disk s m false).2.1.move_index = s.move_index + 1 ∧
      (make_move R dOk repo disk s m false).2.1.current_move_attempts = 0 ∧
      (make_move R dOk repo disk s m false).2.1.precomputed =
        some (some gid, ply + 1) := by
  by_cases hov : R.isGameOver (R.push s.board m) <;>
    refine ⟨?_, ?_, ?_, ?_, ?_, ?_⟩ <;>
      simp [make_move, hstat, hcma, hpre, hgid, hexp, huci, hturn, hleg, truthy, hov]

/-- A concrete Playing session assigned to the bundled game `alpha`. -/
def toySession : GameSession ToyBoard :=
  { id := "s1", board := [], status := SessionStatus.playing,
    player_color := Color.white, maia_level := 1500, score_total := 0,
    move_index := 0, flip := false, current_move_attempts := 0,
    precomputed := some (some "alpha", 0) }

/-- Witness for C3: guessing `e2e4` (the expected ply-0 move of `alpha`)
on the concrete session. -/
theorem C3_correct_guess_accounting_witness :
    (make_move (toyRules 99) true toyRepo toyDisk toySession "e2e4" false).1 =
      Except.ok ⟨"e2e4", true, "Correct", some "e2e4", none, none, some 1⟩ ∧
      (make_move (toyRules 99) true toyRepo toyDisk toySession "e2e4" false).2.1.board =
        ["e2e4"] ∧
      (make_move (toyRules 99) true toyRepo toyDisk toySession "e2e4"
          false).2.1.score_total = 1 := by
  have h := C3_correct_guess_accounting (toyRules 99) true toyRepo toyDisk
    toySession "alpha" 0 "e2e4" (by decide) (by decide) (by decide) (by decide)
    (by decide) (by decide) (by decide) (by decide)
  refine ⟨h.1, h.2.1, ?_⟩
  rw [h.2.2.1]
  norm_num [toySession]

/-- A wrong guess strictly below the retry threshold: the retry counter
is incremented and everything else is untouched. -/
theorem make_move_wrong_below {B : Type} (R : Rules B) (dOk : Bool)
    (repo : RepoState) (disk : List PFile) (s : GameSession B) (gid : String)
    (ply : Nat) (m w : String)
    (hstat : s.status = SessionStatus.playing)
    (hpre : s.precomputed = some (some gid, ply))
    (hgid : gid ≠ "")
    (hexp : get_expected repo gid ply = some m)
    (hlt : s.current_move_attempts + 1 < 10)
    (hne : w ≠ m)
    (huciw : uciOk w = true)
    (hturn : R.turn s.board = s.player_color)
    (hleg : R.isLegal s.board w = true) :
    make_move R dOk repo disk s w false =
      (Except.ok ⟨w, false, "Not the top move. Try again.", none, none, none,
          some (s.current_move_attempts + 1)⟩,
        { s with current_move_attempts := s.current_move_attempts + 1 }, repo, disk) := by
  have hnle : ¬ 10 ≤ s.current_move_attempts + 1 := by omega
  simp [make_move, hstat, hpre, hgid, hexp, hne, huciw, hturn, hleg, truthy, hnle]

/-- The tenth consecutive wrong guess: the expected move is auto-played
with zero score awarded, the board and plies advance, and the retry
count resets — in both terminal branches. -/
theorem make_move_autoplay {B : Type} (R : Rules B) (dOk : Bool)
    (repo : RepoState) (disk : List PFile) (s : GameSession B) (gid : String)
    (ply : Nat) (m w : String)
    (hstat : s.status = SessionStatus.playing)
    (hpre : s.precomputed = some (some gid, ply))
    (hgid : gid ≠ "")
    (hexp : get_expected repo gid ply = some m)
    (hcma9 : s.current_move_attempts = 9)
    (hne : w ≠ m)
    (hucim : uciOk m = true)
    (huciw : uciOk w = true)
    (hturn : R.turn s.board = s.player_color)
    (hleg : R.isLegal s.board w = true) :
    (make_move R dOk repo disk s w false).1 =
      Except.ok ⟨m, true, "Auto-played after 10 attempts.", some m, none, none,
        some 10⟩ ∧
      (make_move R dOk repo disk s w false).2.1.board = R.push s.board m ∧
      (make_move R dOk repo disk s w false).2.1.score_total = s.score_total ∧
      (make_move R dOk repo disk s w false).2.1.move_index = s.move_index + 1 ∧
      (make_move R dOk repo disk s w false).2.1.current_move_attempts = 0 ∧
      (make_move R dOk repo disk s w false).2.1.precomputed =
        some (some gid, ply + 1) := by
  by_cases hov : R.isGameOver (R.push s.board m) <;>
    refine ⟨?_, ?_, ?_, ?_, ?_, ?_⟩ <;>
      simp [make_move, hstat, hpre, hgid, hexp, hcma9, hne, hucim, huciw, hturn,
        hleg, truthy, hov]

/-- One-step unfolding of `nth_result`. -/
theorem nth_result_unfold {B : Type} (R : Rules B) (dOk : Bool)
    (subs : Nat → String) (st : GameSession B × RepoState × List PFile) (n : Nat) :
    nth_result R dOk subs st n =
      (make_move R dOk (state_after R dOk subs st n).2.1
        (state_after R dOk subs st n).2.2
        (state_after R dOk subs st n).1 (subs n) false).1 := rfl

/-- One-step unfolding of `state_after` at a successor. -/
theorem state_after_succ {B : Type} (R : Rules B) (dOk : Bool)
    (subs : Nat → String) (st : GameSession B × RepoState × List PFile) (n : Nat) :
    state_after R dOk subs st (n + 1) =
      (make_move R dOk (state_after R dOk subs st n).2.1
        (state_after R dOk subs st n).2.2
        (state_after R dOk subs st n).1 (subs n) false).2 := rfl

/-- After `i ≤ 9` wrong submissions the session differs from the start
only in its retry counter, and the repository and disk are untouched. -/
theorem state_after_wrong {B : Type} (R : Rules B) (dOk : Bool)
    (repo : RepoState) (disk : List PFile) (s : GameSession B) (gid : String)
    (ply : Nat) (m : String) (subs : Nat → String)
    (hstat : s.status = SessionStatus.playing)
    (hcma : s.current_move_attempts = 0)
    (hpre : s.precomputed = some (some gid, ply))
    (hgid : gid ≠ "")
    (hexp : get_expected repo gid ply = some m)
    (hturn : R.turn s.board = s.player_color)
    (hsubs : ∀ i, i < 10 →
      uciOk (subs i) = true ∧ R.isLegal s.board (subs i) = true ∧ subs i ≠ m) :
    ∀ i, i ≤ 9 → state_after R dOk subs (s, repo, disk) i =
      ({ s with current_move_attempts := i }, repo, disk) := by
  intro i
  induction i with
  | zero =>
    intro _
    show (s, repo, disk) = _
    rw [show ({ s with current_move_attempts := 0 } : GameSession B) = s by
      rw [← hcma]]
  | succ i ih =>
    intro hle
    have hprev := ih (by omega)
    have hw := hsubs i (by omega)
    rw [state_after_succ, hprev]
    rw [make_move_wrong_below R dOk repo disk { s with current_move_attempts := i }
      gid ply m (subs i) hstat hpre hgid hexp (by simp; omega) hw.2.2 hw.1 hturn hw.2.1]

/-- C2: from retry count 0 with expected move `m`, nine wrong legal
submissions each grade incorrect with `attemptsUsed` 1..9, and the
tenth grades correct with the board advanced by `m`, the score
unchanged, `plyIndex` and the script ply advanced by one, and the retry
count reset to 0. -/
theorem C2_retry_threshold_autoplay {B : Type} (R : Rules B) (dOk : Bool)
    (repo : RepoState) (disk : List PFile) (s : GameSession B) (gid : String)
    (ply : Nat) (m : String) (subs : Nat → String)
    (hstat : s.status = SessionStatus.playing)
    (hcma : s.current_move_attempts = 0)
    (hpre : s.precomputed = some (some gid, ply))
    (hgid : gid ≠ "")
    (hexp : get_expected repo gid ply = some m)
    (hucim : uciOk m = true)
    (hturn : R.turn s.board = s.player_color)
    (hsubs : ∀ i, i < 10 →
      uciOk (subs i) = true ∧ R.isLegal s.board (subs i) = true ∧ subs i ≠ m) :
    (∀ i, i < 9 → nth_result R dOk subs (s, repo, disk) i =
        Except.ok ⟨subs i, false, "Not the top move. Try again.", none, none, none,
          some (i + 1)⟩) ∧
      nth_result R dOk subs (s, repo, disk) 9 =
        Except.ok ⟨m, true, "Auto-played after 10 attempts.", some m, none, none,
          some 10⟩ ∧
      (state_after R dOk subs (s, repo, disk) 10).1.board = R.push s.board m ∧
      (state_after R dOk subs (s, repo, disk) 10).1.score_total = s.score_total ∧
      (state_after R dOk subs (s, repo, disk) 10).1.move_index = s.move_index + 1 ∧
      (state_after R dOk subs (s, repo, disk) 10).1.current_move_attempts = 0 ∧
      (state_after R dOk subs (s, repo, disk) 10).1.precomputed =
        some (some gid, ply + 1) := by
  have hstates := state_after_wrong R dOk repo disk s gid ply m subs hstat hcma
    hpre hgid hexp hturn hsubs
  have hnine := hstates 9 (by omega)
  have hauto := make_move_autoplay R dOk repo disk
    { s with current_move_attempts := 9 } gid ply m (subs 9) hstat hpre hgid hexp
    rfl (hsubs 9 (by omega)).2.2 hucim (hsubs 9 (by omega)).1 hturn
    (hsubs 9 (by omega)).2.1
  refine ⟨?_, ?_, ?_, ?_, ?_, ?_, ?_⟩
  · intro i hi
    have hw := hsubs i (by omega)
    rw [nth_result_unfold, hstates i (by omega)]
    rw [make_move_wrong_below R dOk repo disk { s with current_move_attempts := i }
      gid ply m (subs i) hstat hpre hgid hexp (by simp; omega) hw.2.2 hw.1 hturn hw.2.1]
  · rw [nth_result_unfold, hnine]
    exact hauto.1
  all_goals rw [show (10 : Nat) = 9 + 1 from rfl, state_after_succ, hnine]
  · exact hauto.2.1
  · exact hauto.2.2.1
  · exact hauto.2.2.2.1
  · exact hauto.2.2.2.2.1
  · exact hauto.2.2.2.2.2

/-- Witness for C2: submitting `a2a3` ten times against expected `e2e4`
on the concrete session. -/
theorem C2_retry_threshold_autoplay_witness :
    nth_result (toyRules 99) true (fun _ => "a2a3") (toySession, toyRepo, toyDisk) 0 =
      Except.ok ⟨"a2a3", false, "Not the top move. Try again.", none, none, none,
        some 1⟩ ∧
      nth_result (toyRules 99) true (fun _ => "a2a3")
          (toySession, toyRepo, toyDisk) 8 =
        Except.ok ⟨"a2a3", false, "Not the top move. Try again.", none, none, none,
          some 9⟩ ∧
      nth_result (toyRules 99) true (fun _ => "a2a3")
          (toySession, toyRepo, toyDisk) 9 =
        Except.ok ⟨"e2e4", true, "Auto-played after 10 attempts.", some "e2e4",
          none, none, some 10⟩ ∧
      (state_after (toyRules 99) true (fun _ => "a2a3")
          (toySession, toyRepo, toyDisk) 10).1.board = ["e2e4"] ∧
      (state_after (toyRules 99) true (fun _ => "a2a3")
          (toySession, toyRepo, toyDisk) 10).1.score_total = 0 := by
  have h := C2_retry_threshold_autoplay (toyRules 99) true toyRepo toyDisk
    toySession "alpha" 0 "e2e4" (fun _ => "a2a3") (by decide) (by decide)
    (by decide) (by decide) (by decide) (by decide) (by decide) (by decide)
  exact ⟨h.1 0 (by decide), h.1 8 (by decide), h.2.1, h.2.2.1, h.2.2.2.1⟩

/-! ### Rejection paths (C8) and the missing-oracle path (C6) -/

/-- C8: on a Playing session, a move that fails UCI parsing, or is
submitted out of turn, or is rules-illegal, raises `IllegalMove` with
the matching reason and leaves session, repository and disk exactly as
they were — for either value of `client_validated`, since the checks
precede the fast path. -/
theorem C8_illegal_move_no_side_effects {B : Type} (R : Rules B) (dOk : Bool)
    (repo : RepoState) (disk : List PFile) (s : GameSession B) (mv : String)
    (cv : Bool) (hstat : s.status = SessionStatus.playing) :
    (uciOk mv = false →
      make_move R dOk repo disk s mv cv =
        (Except.error (GErr.illegalMove "Invalid move format"), s, repo, disk)) ∧
      (uciOk mv = true → R.turn s.board ≠ s.player_color →
        make_move R dOk repo disk s mv cv =
          (Except.error (GErr.illegalMove "Not your turn"), s, repo, disk)) ∧
      (uciOk mv = true → R.turn s.board = s.player_color →
        R.isLegal s.board mv = false →
        make_move R dOk repo disk s mv cv =
          (Except.error (GErr.illegalMove "Illegal move in current position"),
            s, repo, disk)) := by
  refine ⟨?_, ?_, ?_⟩ <;> intros <;> simp [make_move, hstat, *]

/-- Witness for C8: the unparseable string `zz` on the concrete session. -/
theorem C8_illegal_move_no_side_effects_witness :
    make_move (toyRules 99) true toyRepo toyDisk toySession "zz" false =
      (Except.error (GErr.illegalMove "Invalid move format"),
        toySession, toyRepo, toyDisk) :=
  (C8_illegal_move_no_side_effects (toyRules 99) true toyRepo toyDisk toySession
    "zz" false (by decide)).1 (by decide)

/-- C6 (code observation): a session created while the repository has no
games never gets the `precomputed_game_id` attribute, so grading a
well-formed, legal, on-turn move on it raises `AttributeError` at the
`session.precomputed_game_id` read instead of returning the graded
"No precomputed game available" result. -/
theorem C6_no_oracle_attribute_error :
    (create_session (toyRules 3) ([] : ToyBoard) emptyRepo [] "sid" 1500
        (some Color.white) none).1.precomputed = none ∧
      (create_session (toyRules 3) ([] : ToyBoard) emptyRepo [] "sid" 1500
          (some Color.white) none).1.status = SessionStatus.playing ∧
      uciOk "e2e4" = true ∧
      (toyRules 3).turn
          (create_session (toyRules 3) ([] : ToyBoard) emptyRepo [] "sid" 1500
            (some Color.white) none).1.board =
        (create_session (toyRules 3) ([] : ToyBoard) emptyRepo [] "sid" 1500
          (some Color.white) none).1.player_color ∧
      (toyRules 3).isLegal
          (create_session (toyRules 3) ([] : ToyBoard) emptyRepo [] "sid" 1500
            (some Color.white) none).1.board "e2e4" = true ∧
      make_move (toyRules 3) true emptyRepo []
          (create_session (toyRules 3) ([] : ToyBoard) emptyRepo [] "sid" 1500
            (some Color.white) none).1 "e2e4" false =
        (Except.error GErr.attributeError,
          (create_session (toyRules 3) ([] : ToyBoard) emptyRepo [] "sid" 1500
            (some Color.white) none).1, emptyRepo, []) :=
  ⟨rfl, rfl, rfl, rfl, rfl, rfl⟩

/-! ### Finished implies consumed (C5) -/

/-- Counterexample to C5: on the client-validated fast path a move that
ends the game sets the session to Finished but never consumes the
assigned scripted game — it is still in the repository afterwards. -/
theorem C5_finished_implies_consumed_counterexample :
    (make_move (toyRules 1) true toyRepo toyDisk toySession "e2e4" true).1 =
      Except.ok ⟨"e2e4", true, "Move accepted", some "e2e4", none, none, some 1⟩ ∧
      toySession.precomputed = some (some "alpha", 0) ∧
      (make_move (toyRules 1) true toyRepo toyDisk toySession "e2e4"
          true).2.1.status = SessionStatus.finished ∧
      (lookupA (make_move (toyRules 1) true toyRepo toyDisk toySession "e2e4"
          true).2.2.1.games "alpha").isSome = true :=
  ⟨rfl, rfl, rfl, rfl⟩

/-- C5 (amended): whenever the oracle path of `make_move` (not the
client-validated fast path) or `make_maia_move` entered with a
non-terminal board sets the session's status to Finished, the assigned
scripted game has been consumed from the repository by the time the
call returns; and once Finished, any further `make_move` signals
`GameFinished` and changes nothing. -/
theorem C5_finished_implies_consumed_amended {B : Type} (R : Rules B) (dOk : Bool)
    (repo : RepoState) (disk : List PFile) (s : GameSession B) (gid : String)
    (ply : Nat) (hpre : s.precomputed = some (some gid, ply)) (hgid : gid ≠ "") :
    (∀ (mv : String) (r : MoveResult) (s' : GameSession B) (repo' : RepoState)
        (disk' : List PFile),
      make_move R dOk repo disk s mv false = (Except.ok r, s', repo', disk') →
      s'.status = SessionStatus.finished →
      lookupA repo'.games gid = none) ∧
      (∀ (r : Option String) (s' : GameSession B) (repo' : RepoState)
          (disk' : List PFile),
        s.status = SessionStatus.playing → R.isGameOver s.board = false →
        make_maia_move R dOk repo disk s = (Except.ok r, s', repo', disk') →
        s'.status = SessionStatus.finished →
        lookupA repo'.games gid = none) ∧
      (∀ mv : String, s.status = SessionStatus.finished →
        make_move R dOk repo disk s mv false =
          (Except.error GErr.gameFinished, s, repo, disk)) := by
  refine ⟨?_, ?_, ?_⟩
  · intro mv r s' repo' disk' hEq hfin
    unfold make_move at hEq
    by_cases h1 : s.status ≠ SessionStatus.playing
    · rw [if_pos h1] at hEq
      exact absurd hEq (by simp)
    rw [if_neg h1] at hEq
    have hplay : s.status = SessionStatus.playing := not_not.mp h1
    by_cases h2 : uciOk mv = false
    · rw [if_pos h2] at hEq
      exact absurd hEq (by simp)
    rw [if_neg h2] at hEq
    by_cases h3 : R.turn s.board ≠ s.player_color
    · rw [if_pos h3] at hEq
      exact absurd hEq (by simp)
    rw [if_neg h3] at hEq
    by_cases h4 : R.isLegal s.board mv = false
    · rw [if_pos h4] at hEq
      exact absurd hEq (by simp)
    rw [if_neg h4] at hEq
    rw [if_neg (by simp : ¬((false : Bool) = true))] at hEq
    rw [hpre] at hEq
    dsimp only [Option.getD] at hEq
    rw [if_neg (by simp [truthy, hgid])] at hEq
    cases hexp : get_expected repo gid ply with
    | none =>
      rw [hexp] at hEq
      dsimp only at hEq
      injection hEq with h1r h2r
      injection h2r with hs' h3r
      rw [← hs'] at hfin
      simp [hplay] at hfin
    | some e =>
      rw [hexp] at hEq
      dsimp only at hEq
      by_cases h5 : mv ≠ e
      · rw [if_pos h5] at hEq
        by_cases h6 : 10 ≤ s.current_move_attempts + 1
        · rw [if_pos h6] at hEq
          by_cases h7 : uciOk e = false
          · rw [if_pos h7] at hEq
            exact absurd hEq (by simp)
          rw [if_neg h7] at hEq
          by_cases h8 : R.isGameOver (R.push s.board e) = true
          · rw [if_pos h8] at hEq
            injection hEq with h1r h2r
            injection h2r with hs' h3r
            injection h3r with hrepo' hdisk'
            rw [← hrepo']
            exact consume_game_lookup_none dOk disk repo gid
          · rw [if_neg h8] at hEq
            injection hEq with h1r h2r
            injection h2r with hs' h3r
            rw [← hs'] at hfin
            simp [hplay] at hfin
        · rw [if_neg h6] at hEq
          injection hEq with h1r h2r
          injection h2r with hs' h3r
          rw [← hs'] at hfin
          simp [hplay] at hfin
      · rw [if_neg h5] at hEq
        by_cases h7 : uciOk e = false
        · rw [if_pos h7] at hEq
          exact absurd hEq (by simp)
        rw [if_neg h7] at hEq
        by_cases h8 : R.isGameOver (R.push s.board e) = true
        · rw [if_pos h8] at hEq
          injection hEq with h1r h2r
          injection h2r with hs' h3r
          injection h3r with hrepo' hdisk'
          rw [← hrepo']
          exact consume_game_lookup_none dOk disk repo gid
        · rw [if_neg h8] at hEq
          injection hEq with h1r h2r
          injection h2r with hs' h3r
          rw [← hs'] at hfin
          simp [hplay] at hfin
  · intro r s' repo' disk' hplay hterm hEq hfin
    unfold make_maia_move at hEq
    rw [if_neg (by simp [hplay])] at hEq
    rw [if_neg (by simp [hterm])] at hEq
    rw [hpre] at hEq
    dsimp only [Option.getD] at hEq
    rw [if_neg (by simp [truthy, hgid])] at hEq
    cases hexp : get_expected repo gid ply with
    | none =>
      rw [hexp] at hEq
      dsimp only at hEq
      injection hEq with h1r h2r
      injection h2r with hs' h3r
      injection h3r with hrepo' hdisk'
      rw [← hrepo']
      exact consume_game_lookup_none dOk disk repo gid
    | some e =>
      rw [hexp] at hEq
      dsimp only at hEq
      by_cases h5 : e = ""
      · rw [if_pos h5] at hEq
        injection hEq with h1r h2r
        injection h2r with hs' h3r
        injection h3r with hrepo' hdisk'
        rw [← hrepo']
        exact consume_game_lookup_none dOk disk repo gid
      rw [if_neg h5] at hEq
      by_cases h6 : uciOk e = false
      · rw [if_pos h6] at hEq
        exact absurd hEq (by simp)
      rw [if_neg h6] at hEq
      by_cases h7 : R.isGameOver (R.push s.board e) = true
      · rw [if_pos h7] at hEq
        injection hEq with h1r h2r
        injection h2r with hs' h3r
        injection h3r with hrepo' hdisk'
        rw [← hrepo']
        exact consume_game_lookup_none dOk disk repo gid
      · rw [if_neg h7] at hEq
        injection hEq with h1r h2r
        injection h2r with hs' h3r
        rw [← hs'] at hfin
        simp [hplay] at hfin
  · intro mv hfin
    simp [make_move, hfin]

/-- Witness for the amended C5: on the concrete session, the tenth
wrong guess under rules ending the game after one ply finishes the
session through the oracle path and consumes `alpha`; a finished
session is rejected with `GameFinished`. -/
theorem C5_finished_implies_consumed_amended_witness :
    lookupA (make_move (toyRules 1) true toyRepo toyDisk
        { toySession with current_move_attempts := 9 } "a2a3" false).2.2.1.games
      "alpha" = none ∧
      make_move (toyRules 1) true toyRepo toyDisk
          { toySession with status := SessionStatus.finished } "e2e4" false =
        (Except.error GErr.gameFinished,
          { toySession with status := SessionStatus.finished }, toyRepo, toyDisk) := by
  have h := C5_finished_implies_consumed_amended (toyRules 1) true toyRepo toyDisk
    { toySession with current_move_attempts := 9 } "alpha" 0 (by decide) (by decide)
  have h2 := C5_finished_implies_consumed_amended (toyRules 1) true toyRepo toyDisk
    { toySession with status := SessionStatus.finished } "alpha" 0 (by decide)
    (by decide)
  refine ⟨?_, h2.2.2 "e2e4" (by decide)⟩
  exact h.1 "a2a3"
    ⟨"e2e4", true, "Auto-played after 10 attempts.", some "e2e4", none, none, some 10⟩
    (make_move (toyRules 1) true toyRepo toyDisk
      { toySession with current_move_attempts := 9 } "a2a3" false).2.1
    (make_move (toyRules 1) true toyRepo toyDisk
      { toySession with current_move_attempts := 9 } "a2a3" false).2.2.1
    (make_move (toyRules 1) true toyRepo toyDisk
      { toySession with current_move_attempts := 9 } "a2a3" false).2.2.2
    rfl (by decide)

/-! ### Color assignment from script (C9) -/

/-- C9: creating a session from the standard start when the only
available script records the user side as Black yields
`player_color = Black`, `flip = true`, a Playing session; if the ply-0
lookup yields a usable, legal move it is applied as the opponent's
opening with `move_index = 1` and the script cursor at 1, and if the
lookup fails or the move is unusable the opening step is skipped
silently with the session still starting at `move_index = 0`. -/
theorem C9_color_assignment_from_script {B : Type} (R : Rules B) (initB : B)
    (repo : RepoState) (disk : List PFile) (sid : String) (lvl : Nat)
    (pc : Option Color) (gid : String)
    (hfix : load_all repo disk = repo)
    (hids : repo.ids = [gid])
    (hgid : gid ≠ "")
    (hlc : get_leela_color repo gid = some Color.black)
    (hturn : R.turn initB = Color.white) :
    (create_session R initB repo disk sid lvl pc none).1.player_color =
        Color.black ∧
      (create_session R initB repo disk sid lvl pc none).1.flip = true ∧
      (create_session R initB repo disk sid lvl pc none).1.status =
        SessionStatus.playing ∧
      (∀ m, get_expected repo gid 0 = some m → m ≠ "" → uciOk m = true →
        R.isLegal initB m = true →
        (create_session R initB repo disk sid lvl pc none).1.board =
            R.push initB m ∧
          (create_session R initB repo disk sid lvl pc none).1.move_index = 1 ∧
          (create_session R initB repo disk sid lvl pc none).1.precomputed =
            some (some gid, 1)) ∧
      ((∀ m, get_expected repo gid 0 = some m →
          m = "" ∨ uciOk m = false ∨ R.isLegal initB m = false) →
        (create_session R initB repo disk sid lvl pc none).1.board = initB ∧
          (create_session R initB repo disk sid lvl pc none).1.move_index = 0 ∧
          (create_session R initB repo disk sid lvl pc none).1.precomputed =
            some (some gid, 0)) := by
  have hne : repo.ids ≠ [] := by rw [hids]; simp
  have hassign : assign_game disk repo =
      (some gid, { repo with rr_index := repo.rr_index + 1 }) := by
    rw [assign_game_fixed disk repo hfix hne, hids]
    simp [Nat.mod_one]
  obtain ⟨g, hlkg, hgleela⟩ :
      ∃ g, lookupA repo.games gid = some g ∧ g.leela = Color.black := by
    unfold get_leela_color at hlc
    cases hq : lookupA repo.games gid with
    | none => rw [hq] at hlc; exact absurd hlc (by simp)
    | some g => rw [hq] at hlc; exact ⟨g, rfl, by simpa using hlc⟩
  cases hexp0 : get_expected repo gid 0 with
  | none =>
    have hm0 : g.moves[0]? = none := by
      unfold get_expected at hexp0
      rw [hlkg] at hexp0
      simpa using hexp0
    refine ⟨?_, ?_, ?_, ?_, ?_⟩
    · simp [create_session, has_games, hids, hassign, hgid, get_leela_color,
        hlkg, hgleela, hturn, get_expected, hexp0, hm0]
    · simp [create_session, has_games, hids, hassign, hgid, get_leela_color,
        hlkg, hgleela, hturn, get_expected, hexp0, hm0]
    · simp [create_session, has_games, hids, hassign, hgid, get_leela_color,
        hlkg, hgleela, hturn, get_expected, hexp0, hm0]
    · intro m hm
      exact absurd hm (by simp)
    · intro _
      refine ⟨?_, ?_, ?_⟩ <;>
        simp [create_session, has_games, hids, hassign, hgid, get_leela_color,
          hlkg, hgleela, hturn, get_expected, hexp0, hm0]
  | some m0 =>
    have hm0 : g.moves[0]? = some m0 := by
      unfold get_expected at hexp0
      rw [hlkg] at hexp0
      simpa using hexp0
    by_cases hgood : m0 ≠ "" ∧ uciOk m0 = true ∧ R.isLegal initB m0 = true
    · refine ⟨?_, ?_, ?_, ?_, ?_⟩
      · simp [create_session, has_games, hids, hassign, hgid, get_leela_color,
          hlkg, hgleela, hturn, get_expected, hexp0, hm0, hgood]
      · simp [create_session, has_games, hids, hassign, hgid, get_leela_color,
          hlkg, hgleela, hturn, get_expected, hexp0, hm0, hgood]
      · simp [create_session, has_games, hids, hassign, hgid, get_leela_color,
          hlkg, hgleela, hturn, get_expected, hexp0, hm0, hgood]
      · intro m hm hm1 hm2 hm3
        have hmm : m0 = m := by simpa using hm
        subst hmm
        refine ⟨?_, ?_, ?_⟩ <;>
          simp [create_session, has_games, hids, hassign, hgid, get_leela_color,
            hlkg, hgleela, hturn, get_expected, hexp0, hm0, hgood]
      · intro hbad
        have := hbad m0 rfl
        rcases hgood with ⟨hg1, hg2, hg3⟩
        rcases this with h | h | h
        · exact absurd h hg1
        · rw [hg2] at h; exact absurd h (by simp)
        · rw [hg3] at h; exact absurd h (by simp)
    · have hskip :
          ¬(m0 ≠ "" ∧ uciOk m0 = true ∧ R.isLegal initB m0 = true) := hgood
      refine ⟨?_, ?_, ?_, ?_, ?_⟩
      · simp [create_session, has_games, hids, hassign, hgid, get_leela_color,
          hlkg, hgleela, hturn, get_expected, hexp0, hm0, hskip]
      · simp [create_session, has_games, hids, hassign, hgid, get_leela_color,
          hlkg, hgleela, hturn, get_expected, hexp0, hm0, hskip]
      · simp [create_session, has_games, hids, hassign, hgid, get_leela_color,
          hlkg, hgleela, hturn, get_expected, hexp0, hm0, hskip]
      · intro m hm hm1 hm2 hm3
        have hmm : m0 = m := by simpa using hm
        subst hmm
        exact absurd ⟨hm1, hm2, hm3⟩ hskip
      · intro _
        refine ⟨?_, ?_, ?_⟩ <;>
          simp [create_session, has_games, hids, hassign, hgid, get_leela_color,
            hlkg, hgleela, hturn, get_expected, hexp0, hm0, hskip]

/-- A disk holding only the user-side-Black game `beta`. -/
def blackDisk : List PFile := [fileB]

/-- The repository after scanning `blackDisk`. -/
def blackRepo : RepoState := load_all emptyRepo blackDisk

/-- Witness for C9: with only `beta` (user side Black) available, the
created session plays Black, is flipped, and already has the scripted
opening `d2d4` applied. -/
theorem C9_color_assignment_from_script_witness :
    (create_session (toyRules 99) ([] : ToyBoard) blackRepo blackDisk "sid" 1500
        (some Color.white) none).1.player_color = Color.black ∧
      (create_session (toyRules 99) ([] : ToyBoard) blackRepo blackDisk "sid" 1500
          (some Color.white) none).1.flip = true ∧
      (create_session (toyRules 99) ([] : ToyBoard) blackRepo blackDisk "sid" 1500
          (some Color.white) none).1.board = ["d2d4"] ∧
      (create_session (toyRules 99) ([] : ToyBoard) blackRepo blackDisk "sid" 1500
          (some Color.white) none).1.move_index = 1 ∧
      (create_session (toyRules 99) ([] : ToyBoard) blackRepo blackDisk "sid" 1500
          (some Color.white) none).1.precomputed = some (some "beta", 1) := by
  have h := C9_color_assignment_from_script (toyRules 99) ([] : ToyBoard)
    blackRepo blackDisk "sid" 1500 (some Color.white) "beta" (by decide)
    (by decide) (by decide) (by decide) (by decide)
  have h4 := h.2.2.2.1 "d2d4" (by decide) (by decide) (by decide) (by decide)
  exact ⟨h.1, h.2.1, h4.1, h4.2.1, h4.2.2⟩

end LcStudy
